import Mathlib

/-!
Shallow embedding of the trading-platform bot execution engine
(src/services/exportService.ts and src/services/tradingMode.ts).

Numbers are modelled as rationals (JS `number` arithmetic on the exact
values the claims are about), JS `Map`/object maps as association lists,
and the zustand stores as explicit state records.  JS truthiness of a
number is modelled as `≠ 0` (the only falsy rational; the source never
produces NaN on the paths modelled here).
-/

set_option maxRecDepth 4000

namespace TradingPlatform

/-- Trading mode, `tradingMode.ts` line 5: `'demo' | 'live'`. -/
inductive Mode | demo | live
deriving DecidableEq, Repr

/-- Bot status, `exportService.ts` line 309. -/
inductive Status | running | stopped | error | training
deriving DecidableEq, Repr

/-- Bot strategy kind, `exportService.ts` line 303. -/
inductive BotStrategy | ma_cross | rsi | grid | ml_trend | deep_learning | multi_coin
deriving DecidableEq, Repr

/-- Single-symbol trade signal (the strings `'buy'` / `'sell'`). -/
inductive Sig | buy | sell
deriving DecidableEq, Repr

/-- Trade record type field (`'buy' | 'sell'`, line 327). -/
inductive TradeType | buy | sell
deriving DecidableEq, Repr

/-- Error-report severity used by `errorHandler.handleError`. -/
inductive Severity | low | medium | high | critical
deriving DecidableEq, Repr

/-- Trade record, `exportService.ts` lines 325-332 (the `strategy` string
field is omitted; it never influences control flow). -/
structure Trade where
  time : ℕ
  ty : TradeType
  price : ℚ
  amount : ℚ
  pnl : ℚ
deriving DecidableEq, Repr

/-- Bot performance, `exportService.ts` lines 319-333. -/
structure Perf where
  totalTrades : ℕ
  winRate : ℚ
  profitLoss : ℚ
  lastUpdate : ℕ
  trades : List Trade
deriving DecidableEq, Repr

/-- Open position as stored in the executor's `positions` map
(`exportService.ts` lines 784-788). -/
structure Position where
  entryPrice : ℚ
  amount : ℚ
  timestamp : ℕ
deriving DecidableEq, Repr

/-! ## Balance maps (`tradingMode.ts`)

A JS object used as a currency → number map is an association list with
insertion-order keys; `balance[mode][currency] || 0` reads a missing key
as 0 (and maps a stored 0 to 0, which is the same value). -/

/-- Object-spread update `{...m, [c]: v}`: replace the first binding of
`c`, or append a new binding. -/
def setEntry : List (String × ℚ) → String → ℚ → List (String × ℚ)
  | [], c, v => [(c, v)]
  | (c', v') :: rest, c, v =>
      if c' = c then (c, v) :: rest else (c', v') :: setEntry rest c v

/-- Read `m[c] || 0`. -/
def getEntry (l : List (String × ℚ)) (c : String) : ℚ :=
  (l.lookup c).getD 0

/-- State of the `useTradingMode` store that the engine touches:
the mode and the per-mode balance maps (`tradingMode.ts` lines 59-69). -/
structure TMState where
  mode : Mode
  demoBal : List (String × ℚ)
  liveBal : List (String × ℚ)
deriving DecidableEq, Repr

/-- Balance map of the store's current mode. -/
def TMState.curBal (s : TMState) : List (String × ℚ) :=
  match s.mode with
  | .demo => s.demoBal
  | .live => s.liveBal

/-- `updateBalance(currency, amount)` (`tradingMode.ts` lines 149-160):
`balance[mode][currency] = Math.max(0, (balance[mode][currency] || 0) + amount)`,
on the map of the store's current mode. -/
def TMState.updateBalance (s : TMState) (c : String) (amount : ℚ) : TMState :=
  match s.mode with
  | .demo => { s with demoBal := setEntry s.demoBal c (max 0 (getEntry s.demoBal c + amount)) }
  | .live => { s with liveBal := setEntry s.liveBal c (max 0 (getEntry s.liveBal c + amount)) }

/-- `getBalance(currency)` (`tradingMode.ts` lines 202-205). -/
def TMState.getBalance (s : TMState) (c : String) : ℚ :=
  getEntry s.curBal c

/-- Initial store state (`tradingMode.ts` lines 59-69):
demo `{USDT: 100000}`, live `{USDT: 0, BTC: 0, ETH: 0}`. -/
def initialTMState : TMState :=
  { mode := .demo
    demoBal := [("USDT", 100000)]
    liveBal := [("USDT", 0), ("BTC", 0), ("ETH", 0)] }

/-! ## Shared helpers (`exportService.ts`) -/

/-- JS `Math.round`: round half toward positive infinity. -/
def jsRound (x : ℚ) : ℤ := ⌊x + 1/2⌋

/-- `calculateTradeAmount` (`exportService.ts` lines 662-679).  The `try`
block cannot throw on rational inputs, so the catch branch is dead. -/
def calculateTradeAmount (maxPositionSize currentPrice availableBalance : ℚ) : ℚ :=
  let maxAmount := availableBalance / currentPrice
  if maxPositionSize < currentPrice then
    min 1 maxAmount
  else
    min (⌊maxPositionSize / currentPrice⌋ : ℚ) maxAmount

/-- `calculateWinRate` (`exportService.ts` lines 681-684). -/
def calculateWinRate (currentWinRate : ℚ) (totalTrades : ℕ) (isWin : Bool) : ℚ :=
  let totalWins := (currentWinRate * totalTrades + (if isWin then 100 else 0)) / (totalTrades + 1)
  (jsRound (totalWins * 100) : ℚ) / 100

/-- `'BTC/USDT'.split('/')[0]`: the characters before the first `'/'`
(the whole string when there is no slash, matching JS `split`). -/
def baseCurrency (s : String) : String :=
  ⟨s.data.takeWhile (fun ch => ch ≠ '/')⟩

/-! ## Strategy classes (`exportService.ts` lines 1004-1183)

A market snapshot; `klines = none` models a snapshot whose `klines`
field is not an array (fails `Array.isArray`). -/

/-- Kline entry; only `close` is read by the strategies. -/
structure Kline where
  close : ℚ
deriving DecidableEq, Repr

/-- Market snapshot `{price, klines, volume, timestamp}`. -/
structure MarketData where
  price : ℚ
  klines : Option (List Kline)
  volume : ℚ
  timestamp : ℕ
deriving DecidableEq, Repr

/-- `BaseStrategy.validateData` (lines 1005-1009): passes iff
`marketData.price` is truthy and `marketData.klines` is an array;
on failure the strategy throws (modelled as `Except.error ()`). -/
def validateData (md : MarketData) : Except Unit Unit :=
  if md.price ≠ 0 ∧ md.klines.isSome then .ok () else .error ()

/-- `MACrossStrategy.calculateMA` (lines 1045-1048):
`prices.slice(-period)` summed and divided by `period`.  For
`0 < period`, `slice(-period)` is `drop (length - period)`. -/
def calculateMA (prices : List ℚ) (period : ℕ) : ℚ :=
  ((prices.drop (prices.length - period)).foldl (· + ·) 0) / period

/-- `MACrossStrategy.analyze` (lines 1024-1043). -/
def maCrossAnalyze (fastPeriod slowPeriod : ℕ) (md : MarketData) :
    Except Unit (Option Sig) := do
  let _ ← validateData md
  let klines := md.klines.getD []
  if klines.length < slowPeriod then
    return none
  let prices := klines.map (·.close)
  let fastMA := calculateMA prices fastPeriod
  let slowMA := calculateMA prices slowPeriod
  if fastMA > slowMA then
    return some .buy
  else if fastMA < slowMA then
    return some .sell
  else
    return none

/-- Gains and losses accumulated by the loop in `calculateRSI`
(lines 1084-1094): for each consecutive pair, a non-negative difference
is added to gains, a negative one subtracted from losses. -/
def gainsLosses (prices : List ℚ) : ℚ × ℚ :=
  (prices.zip prices.tail).foldl
    (fun gl pq =>
      let d := pq.2 - pq.1
      if d ≥ 0 then (gl.1 + d, gl.2) else (gl.1, gl.2 - d))
    (0, 0)

/-- `RSIStrategy.calculateRSI` (lines 1083-1102): runs over the whole
`prices` array it is given. -/
def calculateRSI (prices : List ℚ) : ℚ :=
  let gl := gainsLosses prices
  if gl.2 = 0 then 100
  else 100 - 100 / (1 + gl.1 / gl.2)

/-- `RSIStrategy.analyze` (lines 1063-1081). -/
def rsiAnalyze (period : ℕ) (overbought oversold : ℚ) (md : MarketData) :
    Except Unit (Option Sig) := do
  let _ ← validateData md
  let klines := md.klines.getD []
  if klines.length < period + 1 then
    return none
  let prices := klines.map (·.close)
  let rsi := calculateRSI prices
  if rsi ≤ oversold then
    return some .buy
  else if rsi ≥ overbought then
    return some .sell
  else
    return none

/-- Variant of the RSI analyze following the spec's words ("RSI over
`period+1` closes"): the same computation restricted to the last
`period+1` closes.  Used only to compare spec against source. -/
def rsiAnalyzeSpecModel (period : ℕ) (overbought oversold : ℚ) (md : MarketData) :
    Except Unit (Option Sig) := do
  let _ ← validateData md
  let klines := md.klines.getD []
  if klines.length < period + 1 then
    return none
  let prices := (klines.map (·.close)).drop (klines.length - (period + 1))
  let rsi := calculateRSI prices
  if rsi ≤ oversold then
    return some .buy
  else if rsi ≥ overbought then
    return some .sell
  else
    return none

/-- `GridStrategy.analyze` (lines 1119-1130); `gridSize` is fixed in the
constructor (line 1116).  `gridPosition % 2 === 0` uses the JS remainder,
which is `Int.tmod`. -/
def gridAnalyze (upperPrice lowerPrice gridLines : ℚ) (md : MarketData) :
    Except Unit (Option Sig) := do
  let _ ← validateData md
  let gridSize := (upperPrice - lowerPrice) / gridLines
  let gridPosition : ℤ := ⌊(md.price - lowerPrice) / gridSize⌋
  if Int.tmod gridPosition 2 = 0 then
    return some .buy
  else
    return some .sell

/-- `MLTrendStrategy.analyze` (lines 1147-1159); the two `Math.random()`
draws are passed in as parameters. -/
def mlTrendAnalyze (confidenceThreshold prediction confidence : ℚ) (md : MarketData) :
    Except Unit (Option Sig) := do
  let _ ← validateData md
  if confidence > confidenceThreshold then
    return some (if prediction > 1/2 then .buy else .sell)
  else
    return none

/-- `DeepLearningStrategy.analyze` (lines 1176-1182); the `Math.random()`
draw is passed in as a parameter. -/
def deepLearningAnalyze (prediction : ℚ) (md : MarketData) :
    Except Unit (Option Sig) := do
  let _ ← validateData md
  return some (if prediction > 1/2 then .buy else .sell)

/-! ## Strategy executor (`exportService.ts` lines 707-1001)

The executor closure captures the bot object, the strategy instance and
a `useTradingMode.getState()` snapshot at start time.  In particular
`bot.status`, `bot.performance` and `tradingMode.mode` read through these
captured references are the start-time values (the zustand `set` calls
replace the store's objects with fresh copies and never mutate the
captured ones), while `updateBalance`, `getBalance`,
`updateBotPerformance` and `stopBot` go through `getState()`/`set` and
therefore act on the current store state.  The captured values live in
`Env`, the store state and the executor's closure variables in `ExecSt`.
The dynamic `strategy.analyze` results arriving at lines 732 and 837 are
inputs of a tick. -/

/-- Multi-coin recommendation entry `{symbol, action, confidence, price}`
as consumed by the executor (only `symbol` and `price` are read). -/
structure Rec where
  symbol : String
  price : ℚ
  confidence : ℚ
deriving DecidableEq, Repr

/-- Value of a non-null `strategy.analyze` result: a single-symbol string
signal, or the multi-coin `{buy, sell}` object. -/
inductive SignalV
  | single (s : Sig)
  | multi (buy sell : List Rec)
deriving DecidableEq, Repr

/-- Start-time captures of the executor closure. -/
structure Env where
  strategy : BotStrategy
  mode : Mode
  capturedStatus : Status
  capturedPerf : Perf
  maxPositionSize : ℚ
  stopLoss : ℚ
  takeProfit : ℚ
  symbol : String
  maxPositions : ℕ
  hasCleanup : Bool
deriving DecidableEq, Repr

/-- Mutable state: the executor's closure variables (`positions`,
`lastTradeTime`, `lastError`, `consecutiveErrors`, the interval timer),
the trading-mode store, the bot-store entry (status and performance),
the strategy's `activeSymbols` set, and the error reports emitted. -/
structure ExecSt where
  positions : List (String × Position)
  tm : TMState
  storeStatus : Status
  storePerf : Perf
  timerActive : Bool
  consecutiveErrors : ℕ
  lastTradeTime : ℕ
  lastError : ℕ
  reports : List Severity
  activeSymbols : List String
deriving DecidableEq, Repr

/-- `Map.get` on the positions map. -/
def posGet (l : List (String × Position)) (sym : String) : Option Position :=
  l.lookup sym

/-- `Map.delete` on the positions map. -/
def posDelete (l : List (String × Position)) (sym : String) : List (String × Position) :=
  l.filter (fun p => p.1 ≠ sym)

/-- `Map.set` on the positions map (overwrite or append). -/
def posSet : List (String × Position) → String → Position → List (String × Position)
  | [], sym, v => [(sym, v)]
  | (s, v') :: rest, sym, v =>
      if s = sym then (sym, v) :: rest else (s, v') :: posSet rest sym v

/-- `updateActiveSymbols(symbol, true)` (line 1328): `Set.add`. -/
def addActive (l : List String) (sym : String) : List String :=
  if sym ∈ l then l else l ++ [sym]

/-- `updateActiveSymbols(symbol, false)` (line 1331): `Set.delete`. -/
def removeActive (l : List String) (sym : String) : List String :=
  l.filter (· ≠ sym)

/-- `updateBotPerformance` merge (lines 548-563) for the sell-side
partial built at lines 752-768 (also 889-905, 924-939, 981-996): all of
`totalTrades`, `profitLoss`, `winRate` and `trades` are recomputed from
the captured `bot.performance`, and `lastUpdate` is set. -/
def applySellUpdate (cap store : Perf) (now : ℕ) (price amount pnl : ℚ) : Perf :=
  { store with
      totalTrades := cap.totalTrades + 1
      profitLoss := cap.profitLoss + pnl
      winRate := calculateWinRate cap.winRate cap.totalTrades (pnl > 0)
      trades := ({ time := now, ty := .sell, price := price, amount := amount, pnl := pnl } :: cap.trades).take 100
      lastUpdate := now }

/-- `updateBotPerformance` merge for the buy-side partial (lines 797-811
and 859-873): only `totalTrades` and `trades` are in the partial, so the
store's `profitLoss` and `winRate` are kept. -/
def applyBuyUpdate (cap store : Perf) (now : ℕ) (price amount : ℚ) : Perf :=
  { store with
      totalTrades := cap.totalTrades + 1
      trades := ({ time := now, ty := .buy, price := price, amount := amount, pnl := 0 } :: cap.trades).take 100
      lastUpdate := now }

/-- One iteration of the cleanup loop (lines 970-998): close the
position when a (truthy) price is known, crediting the ledger only in
live mode; a falsy price skips the position entirely. -/
def cleanupStep (env : Env) (wsPrice : ℚ) (now : ℕ) (acc : ExecSt) (p : String × Position) :
    ExecSt :=
  if wsPrice ≠ 0 then
    let pnl := (wsPrice - p.2.entryPrice) * p.2.amount
    let acc1 :=
      if env.mode = .live then
        let tm2 := (acc.tm.updateBalance "USDT" (wsPrice * p.2.amount)).updateBalance (baseCurrency p.1) (-p.2.amount)
        { acc with tm := tm2 }
      else acc
    { acc1 with storePerf := applySellUpdate env.capturedPerf acc1.storePerf now wsPrice p.2.amount pnl }
  else acc

/-- Body of the cleanup closure returned at lines 967-1000: clear the
interval, run the close loop over every position, and clear the map. -/
def cleanupRun (env : Env) (wsPrice : ℚ) (now : ℕ) (st : ExecSt) : ExecSt :=
  let st0 := { st with timerActive := false }
  let stFold := st0.positions.foldl (cleanupStep env wsPrice now) st0
  { stFold with positions := [] }

/-- `stopBot` (lines 517-546): a no-op unless the store's bot is
`running`; runs the saved cleanup closure when the store's bot has one,
unsubscribes (no modelled state), sets the status to `stopped` and emits
a low-severity report. -/
def stopBot (env : Env) (wsPrice : ℚ) (now : ℕ) (st : ExecSt) : ExecSt :=
  if st.storeStatus ≠ .running then st
  else
    let st1 := if env.hasCleanup then cleanupRun env wsPrice now st else st
    let st2 := { st1 with storeStatus := .stopped }
    { st2 with reports := st2.reports ++ [.low] }

/-- Inputs of one tick: the WebSocket snapshot (after `klines || []` the
klines are always an array inside the tick) and the two
`strategy.analyze` outcomes (the single-symbol branch re-invokes
`analyze` at line 837). -/
structure TickIn where
  wsConnected : Bool
  price : ℚ
  klines : List Kline
  volume : ℚ
  now : ℕ
  signal1 : Except Unit (Option SignalV)
  signal2 : Except Unit (Option SignalV)
deriving Repr

/-- Result of the `try` block of a tick: an early `return` (lines 720,
734), normal completion (reaching lines 947-949), or a thrown exception
carrying the state mutated so far. -/
inductive TickRes
  | earlyExit (st : ExecSt)
  | completed (st : ExecSt)
  | threw (st : ExecSt)
deriving DecidableEq, Repr

/-- Sell loop of the multi-coin branch (lines 739-773). -/
def multiSellStep (env : Env) (now : ℕ) (st : ExecSt) (r : Rec) : ExecSt :=
  match posGet st.positions r.symbol with
  | none => st
  | some position =>
      let currentPrice := r.price
      let pnl := (currentPrice - position.entryPrice) * position.amount
      let st1 :=
        if env.mode = .live then
          let tm2 := (st.tm.updateBalance "USDT" (currentPrice * position.amount)).updateBalance (baseCurrency r.symbol) (-position.amount)
          { st with tm := tm2 }
        else st
      let st2 := { st1 with storePerf := applySellUpdate env.capturedPerf st1.storePerf now currentPrice position.amount pnl }
      { st2 with
          positions := posDelete st2.positions r.symbol
          activeSymbols := removeActive st2.activeSymbols r.symbol }

/-- Buy loop of the multi-coin branch (lines 776-818); the
`positions.size >= maxPositions` check is a `break`. -/
def multiBuyLoop (env : Env) (now : ℕ) : List Rec → ExecSt → ExecSt
  | [], st => st
  | r :: rest, st =>
      if st.positions.length ≥ env.maxPositions then st
      else
        let availableBalance := st.tm.getBalance "USDT"
        let tradeAmount := calculateTradeAmount env.maxPositionSize r.price availableBalance
        let st1 :=
          if tradeAmount ≥ 1 then
            let position : Position := { entryPrice := r.price, amount := tradeAmount, timestamp := now }
            if env.mode = .live then
              let cost := r.price * tradeAmount
              if cost ≤ availableBalance then
                let tm2 := (st.tm.updateBalance "USDT" (-cost)).updateBalance (baseCurrency r.symbol) tradeAmount
                let sta := { st with tm := tm2 }
                let stb := { sta with storePerf := applyBuyUpdate env.capturedPerf sta.storePerf now r.price tradeAmount }
                { stb with
                    positions := posSet stb.positions r.symbol position
                    activeSymbols := addActive stb.activeSymbols r.symbol }
              else st
            else st
          else st
        multiBuyLoop env now rest st1

/-- Trade-signal handling of the single-symbol branch (lines 840-909),
entered with the re-analysis outcome `sig2` already non-throwing. -/
def tradePhase (env : Env) (inp : TickIn) (sig2 : Option SignalV) (st : ExecSt) : TickRes :=
  let currentPrice := inp.price
  if sig2.isSome ∧ inp.now - st.lastTradeTime > 60000 then
    let availableBalance := st.tm.getBalance "USDT"
    let tradeAmount := calculateTradeAmount env.maxPositionSize currentPrice availableBalance
    if sig2 = some (.single .buy) ∧ st.positions.length = 0 ∧ tradeAmount ≥ 1 then
      if env.mode = .live then
        let cost := currentPrice * tradeAmount
        if cost ≤ availableBalance then
          let position : Position := { entryPrice := currentPrice, amount := tradeAmount, timestamp := inp.now }
          let tm2 := (st.tm.updateBalance "USDT" (-cost)).updateBalance (baseCurrency env.symbol) tradeAmount
          let sta := { st with tm := tm2 }
          let stb := { sta with storePerf := applyBuyUpdate env.capturedPerf sta.storePerf inp.now currentPrice tradeAmount }
          .completed { stb with positions := posSet stb.positions env.symbol position }
        else .completed st
      else .completed st
    else if sig2 = some (.single .sell) ∧ st.positions.length ≠ 0 then
      match posGet st.positions env.symbol with
      | none => .threw st   -- `positions.get(...).entryPrice` on undefined
      | some position =>
          let pnl := (currentPrice - position.entryPrice) * position.amount
          let st1 :=
            if env.mode = .live then
              let tm2 := (st.tm.updateBalance "USDT" (currentPrice * position.amount)).updateBalance (baseCurrency env.symbol) (-position.amount)
              { st with tm := tm2 }
            else st
          let st2 := { st1 with storePerf := applySellUpdate env.capturedPerf st1.storePerf inp.now currentPrice position.amount pnl }
          .completed { st2 with positions := posDelete st2.positions env.symbol }
    else .completed st
  else .completed st

/-- Stop-loss / take-profit check of the single-symbol branch
(lines 912-944). -/
def slPhase (env : Env) (inp : TickIn) (st1 : ExecSt) : TickRes :=
  let currentPrice := inp.price
  if st1.positions.length ≠ 0 then
    match posGet st1.positions env.symbol with
    | none => .threw st1   -- `positions.get(...).entryPrice` on undefined
    | some position =>
        let currentPnl := (currentPrice - position.entryPrice) * position.amount
        let pnlPercentage := currentPnl / (position.entryPrice * position.amount) * 100
        if pnlPercentage ≤ -env.stopLoss ∨ pnlPercentage ≥ env.takeProfit then
          let st2 :=
            if env.mode = .live then
              let tm2 := (st1.tm.updateBalance "USDT" (currentPrice * position.amount)).updateBalance (baseCurrency env.symbol) (-position.amount)
              { st1 with tm := tm2 }
            else st1
          let st3 := { st2 with storePerf := applySellUpdate env.capturedPerf st2.storePerf inp.now currentPrice position.amount currentPnl }
          .completed { st3 with
              positions := posDelete st3.positions env.symbol
              lastTradeTime := inp.now }
        else .completed st1
  else .completed st1

/-- Single-symbol branch of the tick (lines 822-945): trade-signal
handling followed by the stop-loss check. -/
def singleBranch (env : Env) (inp : TickIn) (sig2 : Option SignalV) (st : ExecSt) : TickRes :=
  match tradePhase env inp sig2 st with
  | .completed st1 => slPhase env inp st1
  | other => other

/-- Try-block of one tick (lines 718-949). -/
def tickBody (env : Env) (st : ExecSt) (inp : TickIn) : TickRes :=
  if ¬inp.wsConnected ∨ env.capturedStatus ≠ .running then
    .earlyExit st
  else
    match inp.signal1 with
    | .error _ => .threw st
    | .ok none => .earlyExit st
    | .ok (some sv) =>
        match env.strategy, sv with
        | .multi_coin, .multi buyRecs sellRecs =>
            -- Multi-coin branch (lines 737-820)
            let st1 := sellRecs.foldl (multiSellStep env inp.now) st
            let st2 := multiBuyLoop env inp.now buyRecs st1
            .completed { st2 with lastTradeTime := inp.now }
        | _, _ =>
            -- Single-symbol branch (lines 822-945)
            if inp.price = 0 then .threw st   -- line 825: throw on falsy price
            else
              match inp.signal2 with
              | .error _ => .threw st
              | .ok sig2 => singleBranch env inp sig2 st

/-- One full tick including the catch block (lines 718-963): on success
reset the error counters; on a throw increment `consecutiveErrors` and
either report `medium` or — from the fifth consecutive error — clear the
interval, call `stopBot` and report `high`. -/
def tick (env : Env) (st : ExecSt) (inp : TickIn) : ExecSt :=
  match tickBody env st inp with
  | .earlyExit st1 => st1
  | .completed st1 => { st1 with consecutiveErrors := 0, lastError := 0 }
  | .threw st1 =>
      let ce := st1.consecutiveErrors + 1
      let st2 := { st1 with consecutiveErrors := ce, lastError := inp.now }
      if ce ≥ 5 then
        let st3 := { st2 with timerActive := false }
        let st4 := stopBot env inp.price inp.now st3
        { st4 with reports := st4.reports ++ [.high] }
      else
        { st2 with reports := st2.reports ++ [.medium] }

/-- State carried by a tick outcome. -/
def TickRes.state : TickRes → ExecSt
  | .earlyExit s => s
  | .completed s => s
  | .threw s => s

/-! ## Generic lemmas about the embedding -/

theorem foldl_add_eq_sum (l : List ℚ) (a : ℚ) : l.foldl (· + ·) a = a + l.sum := by
  induction l generalizing a with
  | nil => simp
  | cons x xs ih => simp [List.foldl_cons, ih, add_assoc]

theorem reverse_take_reverse_eq_drop {α : Type} (l : List α) (n : ℕ) :
    (l.reverse.take n).reverse = l.drop (l.length - n) := by
  simpa using List.reverse_take (l := l.reverse) (n := n)

theorem lookup_setEntry_self (l : List (String × ℚ)) (c : String) (v : ℚ) :
    (setEntry l c v).lookup c = some v := by
  induction l with
  | nil => simp [setEntry]
  | cons p rest ih =>
      obtain ⟨c', v'⟩ := p
      by_cases h : c' = c
      · subst h; simp [setEntry, List.lookup]
      · have hcc : (c == c') = false := by
          simp only [beq_eq_false_iff_ne, ne_eq]
          exact fun hh => h hh.symm
        simp [setEntry, h, List.lookup, hcc, ih]

theorem mem_setEntry {l : List (String × ℚ)} {c : String} {v : ℚ} {p : String × ℚ}
    (h : p ∈ setEntry l c v) : p = (c, v) ∨ p ∈ l := by
  induction l with
  | nil => simpa [setEntry] using h
  | cons q rest ih =>
      simp only [setEntry] at h
      by_cases hq : q.1 = c
      · rw [if_pos hq] at h
        rcases List.mem_cons.mp h with h1 | h1
        · exact Or.inl h1
        · exact Or.inr (List.mem_cons_of_mem _ h1)
      · rw [if_neg hq] at h
        rcases List.mem_cons.mp h with h1 | h1
        · exact Or.inr (h1 ▸ List.mem_cons_self _ _)
        · rcases ih h1 with h2 | h2
          · exact Or.inl h2
          · exact Or.inr (List.mem_cons_of_mem _ h2)

/-- Entry-wise non-negativity of a balance map. -/
def BalNonneg (l : List (String × ℚ)) : Prop := ∀ p ∈ l, 0 ≤ p.2

/-- Non-negativity of both per-mode balance maps of the store. -/
def TMNonneg (s : TMState) : Prop := BalNonneg s.demoBal ∧ BalNonneg s.liveBal

theorem balNonneg_setEntry_max {l : List (String × ℚ)} (hl : BalNonneg l)
    (c : String) (x : ℚ) : BalNonneg (setEntry l c (max 0 x)) := by
  intro p hp
  rcases mem_setEntry hp with h | h
  · simp [h]
  · exact hl p h

theorem tmNonneg_updateBalance {s : TMState} (hs : TMNonneg s) (c : String) (δ : ℚ) :
    TMNonneg (s.updateBalance c δ) := by
  obtain ⟨hd, hl⟩ := hs
  cases hm : s.mode <;>
    simp only [TMState.updateBalance, hm] <;>
    exact ⟨by first
            | exact balNonneg_setEntry_max hd c _
            | exact hd,
          by first
            | exact balNonneg_setEntry_max hl c _
            | exact hl⟩

/-- Folding a list of `(currency, delta)` updates through `updateBalance`. -/
def applyUpdates (s : TMState) (us : List (String × ℚ)) : TMState :=
  us.foldl (fun acc u => acc.updateBalance u.1 u.2) s

theorem tmNonneg_applyUpdates {s : TMState} (hs : TMNonneg s) (us : List (String × ℚ)) :
    TMNonneg (applyUpdates s us) := by
  induction us generalizing s with
  | nil => exact hs
  | cons u rest ih => exact ih (tmNonneg_updateBalance hs u.1 u.2)

/-! ## Claim theorems -/

/-- Spec-side rounding to 2 decimal places (round half up, as JS
`Math.round(x*100)/100` does). -/
def round2 (x : ℚ) : ℚ := (jsRound (x * 100) : ℚ) / 100

/-- C9: the win-rate update helper satisfies
`newRate = round2((oldRate × oldTotalTrades + (isWin ? 100 : 0)) / (oldTotalTrades + 1))`,
and in particular one more winning trade from `winRate=50, totalTrades=1`
yields 75. -/
theorem claim_C9_winRate :
    (∀ (c : ℚ) (t : ℕ) (w : Bool),
      calculateWinRate c t w = round2 ((c * t + (if w then 100 else 0)) / (t + 1)))
    ∧ calculateWinRate 50 1 true = 75 := by
  constructor
  · intro c t w
    simp [calculateWinRate, round2]
  · norm_num [calculateWinRate, jsRound]

theorem validateData_ok (md : MarketData) (h1 : md.price ≠ 0) (h2 : md.klines.isSome) :
    validateData md = .ok () := by
  simp [validateData, h1, h2]

theorem validateData_error_iff (md : MarketData) :
    validateData md = .error () ↔ (md.price = 0 ∨ md.klines = none) := by
  by_cases h : md.price ≠ 0 ∧ md.klines.isSome
  · obtain ⟨h1, h2⟩ := h
    simp [validateData, h1, h2, Option.ne_none_iff_isSome.mpr h2]
  · rw [not_and_or, not_not, Option.not_isSome_iff_eq_none] at h
    have hcond : ¬ (md.price ≠ 0 ∧ md.klines.isSome) := by
      rcases h with h | h
      · exact fun hc => hc.1 h
      · exact fun hc => by simp [h] at hc
    simp only [validateData, if_neg hcond, true_iff]
    rcases h with h | h
    · exact Or.inl h
    · exact Or.inr h

/-- C5: trade sizing returns `min(1, availableBalance/price)` when
`maxPositionSize < price` and `min(floor(maxPositionSize/price),
availableBalance/price)` otherwise; with `maxPositionSize=1000`,
`price=50` and `availableBalance/price ≥ 20` it returns 20. -/
theorem claim_C5_tradeAmount :
    ∀ (m p b : ℚ), 0 < p → 0 ≤ b →
      ((m < p → calculateTradeAmount m p b = min 1 (b / p)) ∧
       (¬ m < p → calculateTradeAmount m p b = min (⌊m / p⌋ : ℚ) (b / p)) ∧
       (m = 1000 → p = 50 → 20 ≤ b / p → calculateTradeAmount m p b = 20)) := by
  intro m p b _hp _hb
  refine ⟨fun h => ?_, fun h => ?_, fun hm hp50 hb20 => ?_⟩
  · simp [calculateTradeAmount, if_pos h]
  · simp [calculateTradeAmount, if_neg h]
  · subst hm; subst hp50
    have h20 : (⌊(1000 : ℚ) / 50⌋ : ℚ) = 20 := by norm_num
    have hlt : ¬ (1000 : ℚ) < 50 := by norm_num
    simp only [calculateTradeAmount, if_neg hlt, h20]
    exact min_eq_left hb20

/-- Witness for C5 at `maxPositionSize=1000`, `price=50`,
`availableBalance=100000`. -/
theorem claim_C5_tradeAmount_witness : calculateTradeAmount 1000 50 100000 = 20 :=
  (claim_C5_tradeAmount 1000 50 100000 (by norm_num) (by norm_num)).2.2 rfl rfl (by norm_num)

/-- C3: `updateBalance(currency, delta)` stores
`max(0, old + delta)` for that currency in the current mode's map
(a missing entry reads as 0), and any sequence of `updateBalance` calls
from the initial store state keeps every stored balance non-negative. -/
theorem claim_C3_updateBalance :
    (∀ (s : TMState) (c : String) (δ : ℚ),
      (s.updateBalance c δ).getBalance c = max 0 (s.getBalance c + δ))
    ∧ (∀ us : List (String × ℚ), TMNonneg (applyUpdates initialTMState us)) := by
  constructor
  · intro s c δ
    cases hm : s.mode <;>
      simp [TMState.updateBalance, TMState.getBalance, TMState.curBal, hm, getEntry,
        lookup_setEntry_self]
  · intro us
    refine tmNonneg_applyUpdates ⟨?_, ?_⟩ us <;>
      intro p hp <;>
      simp only [initialTMState, List.mem_cons, List.mem_singleton] at hp <;>
      rcases hp with h | h <;> (try rcases h with h | h) <;> (try rcases h with h | h) <;>
      (try simp [h]) <;> simp_all

/-- C10 counterexample: a snapshot with the negative price −1 and a
klines array is NOT rejected by `validateData` (JS `!price` only catches
0), so the Grid strategy returns a signal instead of raising — refuting
"analyze raises whenever the snapshot lacks a positive price". -/
theorem claim_C10_counterexample :
    gridAnalyze 100 0 10 { price := -1, klines := some [], volume := 0, timestamp := 0 }
        = .ok (some .sell)
    ∧ ({ price := -1, klines := some [], volume := 0, timestamp := 0 } : MarketData).price < 0 := by
  constructor
  · norm_num [gridAnalyze, validateData, bind, Except.bind, pure, Except.pure]
    decide
  · norm_num

/-- C10 amended: for the MA-Cross, RSI, Grid, ML-Trend and Deep-Learning
strategies, `analyze` raises the invalid-market-data error exactly when
the snapshot's price is 0 (the only falsy number the engine produces) or
its klines is not an array; any snapshot with a nonzero price — negative
prices included — and a klines array passes validation. -/
theorem claim_C10_amended :
    ∀ (md : MarketData) (fast slow period : ℕ) (ob os up lo gl th p1 p2 : ℚ),
      ((maCrossAnalyze fast slow md = .error ()) ↔ (md.price = 0 ∨ md.klines = none)) ∧
      ((rsiAnalyze period ob os md = .error ()) ↔ (md.price = 0 ∨ md.klines = none)) ∧
      ((gridAnalyze up lo gl md = .error ()) ↔ (md.price = 0 ∨ md.klines = none)) ∧
      ((mlTrendAnalyze th p1 p2 md = .error ()) ↔ (md.price = 0 ∨ md.klines = none)) ∧
      ((deepLearningAnalyze p1 md = .error ()) ↔ (md.price = 0 ∨ md.klines = none)) := by
  intro md fast slow period ob os up lo gl th p1 p2
  by_cases h : md.price ≠ 0 ∧ md.klines.isSome
  · obtain ⟨h1, h2⟩ := h
    have hv : validateData md = .ok () := validateData_ok md h1 h2
    have hrhs : ¬ (md.price = 0 ∨ md.klines = none) := by
      simp [h1, Option.ne_none_iff_isSome.mpr h2]
    refine ⟨?_, ?_, ?_, ?_, ?_⟩ <;>
      · simp only [maCrossAnalyze, rsiAnalyze, gridAnalyze, mlTrendAnalyze,
          deepLearningAnalyze, hv, bind, Except.bind, hrhs, iff_false]
        split_ifs <;> simp [pure, Except.pure]
  · have hv : validateData md = .error () := by
      simp [validateData, h]
    have hrhs : md.price = 0 ∨ md.klines = none := (validateData_error_iff md).mp hv
    refine ⟨?_, ?_, ?_, ?_, ?_⟩ <;>
      simp [maCrossAnalyze, rsiAnalyze, gridAnalyze, mlTrendAnalyze,
        deepLearningAnalyze, hv, bind, Except.bind, hrhs]

/-- Witness for C10 amended: a zero-price snapshot makes the MA-Cross
analyze raise. -/
theorem claim_C10_amended_witness :
    maCrossAnalyze 2 4 { price := 0, klines := some [], volume := 0, timestamp := 0 }
      = .error () :=
  (claim_C10_amended { price := 0, klines := some [], volume := 0, timestamp := 0 }
    2 4 14 70 30 100 0 10 (3/10) (1/2) (1/2)).1.mpr (Or.inl rfl)

/-- C8: the Grid strategy computes
`gridPosition = floor((price − lower) / ((upper − lower) / gridLines))`
with no clamping and returns `buy` exactly when `gridPosition` is even,
`sell` otherwise — also for prices outside `[lower, upper]` — and never
returns the `none` signal. -/
theorem claim_C8_grid :
    ∀ (up lo gl : ℚ) (md : MarketData),
      md.price ≠ 0 → md.klines ≠ none → lo < up → 0 < gl →
      gridAnalyze up lo gl md =
        .ok (some (if Even ⌊(md.price - lo) / ((up - lo) / gl)⌋ then Sig.buy else Sig.sell))
      ∧ gridAnalyze up lo gl md ≠ .ok none := by
  intro up lo gl md h1 h2 _ _
  have hv : validateData md = .ok () := validateData_ok md h1 (Option.ne_none_iff_isSome.mp h2)
  have hmain : gridAnalyze up lo gl md =
      .ok (some (if Even ⌊(md.price - lo) / ((up - lo) / gl)⌋ then Sig.buy else Sig.sell)) := by
    simp only [gridAnalyze, hv, bind, Except.bind]
    by_cases he : Even ⌊(md.price - lo) / ((up - lo) / gl)⌋
    · have ht : Int.tmod ⌊(md.price - lo) / ((up - lo) / gl)⌋ 2 = 0 :=
        Int.tmod_eq_zero_of_dvd (even_iff_two_dvd.mp he)
      simp [ht, he, pure, Except.pure]
    · have ht : Int.tmod ⌊(md.price - lo) / ((up - lo) / gl)⌋ 2 ≠ 0 := fun hc =>
        he (even_iff_two_dvd.mpr (Int.dvd_of_tmod_eq_zero hc))
      simp [ht, he, pure, Except.pure]
  refine ⟨hmain, ?_⟩
  rw [hmain]
  split <;> simp

/-- Witness for C8 at an out-of-range price: `price = 250` above
`upper = 100` gives the unclamped index `floor(250/10) = 25`, odd, hence
`sell`. -/
theorem claim_C8_grid_witness :
    gridAnalyze 100 0 10 { price := 250, klines := some [], volume := 0, timestamp := 0 }
      = .ok (some .sell) := by
  have h := (claim_C8_grid 100 0 10
    { price := 250, klines := some [], volume := 0, timestamp := 0 }
    (by norm_num) (by simp) (by norm_num) (by norm_num)).1
  rw [h]
  norm_num [Int.even_iff]

/-- C6: MA-Cross returns no signal when `klines.length < slowPeriod`,
and otherwise compares the simple moving averages of the last
`fastPeriod` and the last `slowPeriod` closes: `buy` if fast > slow,
`sell` if fast < slow, `none` if equal. -/
theorem claim_C6_maCross :
    ∀ (fast slow : ℕ) (md : MarketData) (l : List Kline),
      md.klines = some l → md.price ≠ 0 → 0 < fast → fast ≤ slow →
      (l.length < slow → maCrossAnalyze fast slow md = .ok none) ∧
      (slow ≤ l.length →
        maCrossAnalyze fast slow md = .ok (
          if ((l.map (·.close)).reverse.take fast).reverse.sum / fast >
             ((l.map (·.close)).reverse.take slow).reverse.sum / slow then some .buy
          else if ((l.map (·.close)).reverse.take fast).reverse.sum / fast <
             ((l.map (·.close)).reverse.take slow).reverse.sum / slow then some .sell
          else none)) := by
  intro fast slow md l hl h1 _hf _hfs
  have hv : validateData md = .ok () := validateData_ok md h1 (by simp [hl])
  have hma : ∀ n : ℕ, calculateMA (l.map (·.close)) n =
      (((l.map (·.close)).reverse.take n).reverse).sum / n := by
    intro n
    rw [calculateMA, foldl_add_eq_sum, zero_add, reverse_take_reverse_eq_drop]
  constructor
  · intro hlen
    simp [maCrossAnalyze, hv, bind, Except.bind, hl, hlen, pure, Except.pure]
  · intro hlen
    have hnot : ¬ l.length < slow := not_lt.mpr hlen
    simp only [maCrossAnalyze, hv, bind, Except.bind, pure, Except.pure, hl,
      Option.getD_some, List.length_map, if_neg hnot, hma, gt_iff_lt]
    split_ifs <;> rfl

/-- Witness for C6: closes `[1,2,3,4,5]`, `fastPeriod=2`, `slowPeriod=4`
give fast MA 4.5 > slow MA 3.5, hence `buy`. -/
theorem claim_C6_maCross_witness :
    maCrossAnalyze 2 4
      { price := 5, klines := some ([1,2,3,4,5].map Kline.mk), volume := 0, timestamp := 0 }
      = .ok (some .buy) := by
  have h := (claim_C6_maCross 2 4
    { price := 5, klines := some ([1,2,3,4,5].map Kline.mk), volume := 0, timestamp := 0 }
    ([1,2,3,4,5].map Kline.mk) rfl (by norm_num) (by norm_num) (by norm_num)).2
    (by simp)
  rw [h]
  norm_num

/-- Spec-side sum of gains: total of the positive consecutive close
differences ("sum of gains" in the spec's RSI description). -/
def gainsSpec (closes : List ℚ) : ℚ :=
  (closes.zip closes.tail).foldl (fun g pq => g + max (pq.2 - pq.1) 0) 0

/-- Spec-side sum of losses: total of the negative consecutive close
differences, as a non-negative quantity. -/
def lossesSpec (closes : List ℚ) : ℚ :=
  (closes.zip closes.tail).foldl (fun g pq => g + max (pq.1 - pq.2) 0) 0

/-- Spec-side Wilder RSI: `100 − 100/(1+RS)` with `RS = gains/losses`,
and 100 when the losses are 0. -/
def wilderRSISpec (closes : List ℚ) : ℚ :=
  if lossesSpec closes = 0 then 100
  else 100 - 100 / (1 + gainsSpec closes / lossesSpec closes)

theorem gainsLosses_pair :
    ∀ (zs : List (ℚ × ℚ)) (a b : ℚ),
      zs.foldl (fun gl pq =>
        let d := pq.2 - pq.1
        if d ≥ 0 then (gl.1 + d, gl.2) else (gl.1, gl.2 - d)) (a, b)
      = (zs.foldl (fun g pq => g + max (pq.2 - pq.1) 0) a,
         zs.foldl (fun g pq => g + max (pq.1 - pq.2) 0) b) := by
  intro zs
  induction zs with
  | nil => intro a b; rfl
  | cons z zs ih =>
      intro a b
      simp only [List.foldl_cons]
      by_cases hd : z.2 - z.1 ≥ 0
      · have h1 : max (z.2 - z.1) 0 = z.2 - z.1 := max_eq_left hd
        have h2 : max (z.1 - z.2) 0 = 0 := max_eq_right (by linarith)
        simp only [hd, if_true, h1, h2, add_zero]
        exact ih _ _
      · have hd2 : z.2 - z.1 < 0 := lt_of_not_ge hd
        have h1 : max (z.2 - z.1) 0 = 0 := max_eq_right (le_of_lt hd2)
        have h2 : max (z.1 - z.2) 0 = z.1 - z.2 := max_eq_left (by linarith)
        have h3 : b - (z.2 - z.1) = b + (z.1 - z.2) := by ring
        simp only [hd, if_false, h1, h2, add_zero, h3]
        exact ih _ _

theorem calculateRSI_eq_spec (l : List ℚ) : calculateRSI l = wilderRSISpec l := by
  simp only [calculateRSI, wilderRSISpec, gainsLosses, gainsSpec, lossesSpec,
    gainsLosses_pair]

theorem chain_lt_zip :
    ∀ {l : List ℚ}, List.Chain' (· < ·) l → ∀ p ∈ l.zip l.tail, p.1 < p.2 := by
  intro l
  induction l with
  | nil => intro _ p hp; simp at hp
  | cons a rest ih =>
      cases rest with
      | nil => intro _ p hp; simp at hp
      | cons b rest2 =>
          intro h p hp
          rw [List.chain'_cons] at h
          simp only [List.tail_cons, List.zip_cons_cons, List.mem_cons] at hp
          rcases hp with hp | hp
          · rw [hp]; exact h.1
          · exact ih h.2 p (by simpa using hp)

theorem lossesSpec_eq_zero {l : List ℚ} (h : ∀ p ∈ l.zip l.tail, p.1 < p.2) :
    lossesSpec l = 0 := by
  unfold lossesSpec
  have key : ∀ (zs : List (ℚ × ℚ)), (∀ p ∈ zs, p.1 < p.2) → ∀ a : ℚ,
      zs.foldl (fun g pq => g + max (pq.1 - pq.2) 0) a = a := by
    intro zs
    induction zs with
    | nil => intro _ a; rfl
    | cons z zs ih =>
        intro hz a
        have hzlt : z.1 < z.2 := hz z (List.mem_cons_self _ _)
        have hm : max (z.1 - z.2) 0 = 0 := max_eq_right (by linarith)
        simp only [List.foldl_cons, hm, add_zero]
        exact ih (fun p hp => hz p (List.mem_cons_of_mem _ hp)) a
  exact key _ h 0

/-- C7 counterexample: with `period = 2` and closes `[10,1,2,3]`
(`klines.length = 4 ≥ period+1`), the code computes the RSI over ALL
four closes (RSI ≈ 18.2 ≤ oversold ⇒ `buy`), while the claim's
"RSI over `period+1` closes" (the last three, strictly increasing,
RSI = 100 ≥ overbought) demands `sell`. -/
theorem claim_C7_counterexample :
    rsiAnalyze 2 70 30
      { price := 3, klines := some ([10,1,2,3].map Kline.mk), volume := 0, timestamp := 0 }
      = .ok (some .buy)
    ∧ rsiAnalyzeSpecModel 2 70 30
      { price := 3, klines := some ([10,1,2,3].map Kline.mk), volume := 0, timestamp := 0 }
      = .ok (some .sell)
    ∧ 2 + 1 ≤ ([10,1,2,3].map Kline.mk).length := by
  refine ⟨?_, ?_, by norm_num⟩ <;>
    norm_num [rsiAnalyze, rsiAnalyzeSpecModel, validateData, bind, Except.bind, pure,
      Except.pure, calculateRSI, gainsLosses]

/-- C7 amended: the RSI strategy returns no signal when
`klines.length < period+1`; otherwise it computes the Wilder-style RSI
over ALL the snapshot's closes (not only the last `period+1`) — gains
and losses summed over all consecutive pairs, `RSI = 100 − 100/(1+RS)`,
100 when losses are 0 — and returns `buy` when `RSI ≤ oversold`, `sell`
when `RSI ≥ overbought`, otherwise `none`; strictly increasing closes
give RSI = 100 and the signal `sell` (when `oversold < 100` and
`overbought ≤ 100`). -/
theorem claim_C7_amended :
    ∀ (period : ℕ) (ob os : ℚ) (md : MarketData) (l : List Kline),
      md.klines = some l → md.price ≠ 0 →
      (l.length < period + 1 → rsiAnalyze period ob os md = .ok none) ∧
      (period + 1 ≤ l.length →
        rsiAnalyze period ob os md = .ok (
          if wilderRSISpec (l.map (·.close)) ≤ os then some .buy
          else if wilderRSISpec (l.map (·.close)) ≥ ob then some .sell
          else none)) ∧
      (period + 1 ≤ l.length → List.Chain' (· < ·) (l.map (·.close)) →
        os < 100 → ob ≤ 100 →
        rsiAnalyze period ob os md = .ok (some .sell)) := by
  intro period ob os md l hl h1
  have hv : validateData md = .ok () := validateData_ok md h1 (by simp [hl])
  have heq : calculateRSI (l.map (·.close)) = wilderRSISpec (l.map (·.close)) :=
    calculateRSI_eq_spec _
  refine ⟨?_, ?_, ?_⟩
  · intro hlen
    simp [rsiAnalyze, hv, bind, Except.bind, hl, hlen, pure, Except.pure]
  · intro hlen
    have hnot : ¬ l.length < period + 1 := not_lt.mpr hlen
    simp only [rsiAnalyze, hv, bind, Except.bind, pure, Except.pure, hl,
      Option.getD_some, List.length_map, if_neg hnot, heq, ge_iff_le]
    split_ifs <;> rfl
  · intro hlen hchain hos hob
    have hz : lossesSpec (l.map (·.close)) = 0 := lossesSpec_eq_zero (chain_lt_zip hchain)
    have hrsi : wilderRSISpec (l.map (·.close)) = 100 := by simp [wilderRSISpec, hz]
    have hnot : ¬ l.length < period + 1 := not_lt.mpr hlen
    have hnbuy : ¬ wilderRSISpec (l.map (·.close)) ≤ os := by
      rw [hrsi]; exact not_le.mpr hos
    have hsell : wilderRSISpec (l.map (·.close)) ≥ ob := by
      rw [hrsi]; exact hob
    simp [rsiAnalyze, hv, bind, Except.bind, pure, Except.pure, hl, hnot, heq, hnbuy,
      hsell]

/-- Witness for C7 amended: strictly increasing closes `1..15` with
`period = 14`, `overbought = 70`, `oversold = 30` give the signal
`sell`. -/
theorem claim_C7_amended_witness :
    rsiAnalyze 14 70 30
      { price := 15, klines := some (([1,2,3,4,5,6,7,8,9,10,11,12,13,14,15] : List ℚ).map Kline.mk),
        volume := 0, timestamp := 0 }
      = .ok (some .sell) :=
  (claim_C7_amended 14 70 30 _ (([1,2,3,4,5,6,7,8,9,10,11,12,13,14,15] : List ℚ).map Kline.mk)
    rfl (by norm_num)).2.2 (by norm_num)
    (by norm_num [List.chain'_cons]) (by norm_num) (by norm_num)

/-! ## Demo-mode frame machinery (claim C4) -/

/-- Frame relation between an initial and a final executor state: the
trading-mode store is untouched, no position was inserted, and every
buy-trade record already existed (in the store's or the captured
performance). -/
def DemoFrame (cap : Perf) (st0 st : ExecSt) : Prop :=
  st.tm = st0.tm ∧
  (∀ p ∈ st.positions, p ∈ st0.positions) ∧
  (∀ t ∈ st.storePerf.trades, t.ty = TradeType.buy →
    t ∈ st0.storePerf.trades ∨ t ∈ cap.trades)

theorem demoFrame_refl (cap : Perf) (st : ExecSt) : DemoFrame cap st st :=
  ⟨rfl, fun _ h => h, fun t ht _ => Or.inl ht⟩

theorem demoFrame_trans {cap : Perf} {s0 s1 s2 : ExecSt}
    (h1 : DemoFrame cap s0 s1) (h2 : DemoFrame cap s1 s2) : DemoFrame cap s0 s2 := by
  obtain ⟨a1, b1, c1⟩ := h1
  obtain ⟨a2, b2, c2⟩ := h2
  refine ⟨a2.trans a1, fun p hp => b1 p (b2 p hp), fun t ht hb => ?_⟩
  rcases c2 t ht hb with h | h
  · exact c1 t h hb
  · exact Or.inr h

theorem applySellUpdate_buyTrades (cap store : Perf) (now : ℕ) (price amount pnl : ℚ)
    {t : Trade} (ht : t ∈ (applySellUpdate cap store now price amount pnl).trades)
    (hb : t.ty = TradeType.buy) : t ∈ cap.trades := by
  simp only [applySellUpdate] at ht
  have ht2 := List.take_subset _ _ ht
  rcases List.mem_cons.mp ht2 with h | h
  · rw [h] at hb
    simp at hb
  · exact h

theorem cleanupStep_demoFrame {env : Env} (henv : env.mode = .demo)
    (w : ℚ) (n : ℕ) (acc : ExecSt) (z : String × Position) :
    DemoFrame env.capturedPerf acc (cleanupStep env w n acc z) := by
  unfold cleanupStep
  simp only [henv, reduceCtorEq, if_false]
  split_ifs with h1
  · refine ⟨rfl, fun p hp => hp, fun t ht hb => ?_⟩
    exact Or.inr (applySellUpdate_buyTrades env.capturedPerf acc.storePerf n w z.2.amount
      ((w - z.2.entryPrice) * z.2.amount) ht hb)
  · exact demoFrame_refl _ _

theorem foldl_cleanupStep_demoFrame {env : Env} (henv : env.mode = .demo)
    (w : ℚ) (n : ℕ) :
    ∀ (ps : List (String × Position)) (acc : ExecSt),
      DemoFrame env.capturedPerf acc (ps.foldl (cleanupStep env w n) acc) := by
  intro ps
  induction ps with
  | nil => intro acc; exact demoFrame_refl _ _
  | cons z ps ih =>
      intro acc
      rw [List.foldl_cons]
      exact demoFrame_trans (cleanupStep_demoFrame henv w n acc z) (ih _)

theorem cleanupRun_demoFrame {env : Env} (henv : env.mode = .demo)
    (w : ℚ) (n : ℕ) (st : ExecSt) :
    DemoFrame env.capturedPerf st (cleanupRun env w n st) := by
  unfold cleanupRun
  have f0 : DemoFrame env.capturedPerf st { st with timerActive := false } :=
    ⟨rfl, fun _ h => h, fun t ht _ => Or.inl ht⟩
  have f1 := foldl_cleanupStep_demoFrame henv w n
    ({ st with timerActive := false } : ExecSt).positions { st with timerActive := false }
  have f2 := demoFrame_trans f0 f1
  obtain ⟨a, b, c⟩ := f2
  exact ⟨a, fun p hp => absurd hp (List.not_mem_nil p), c⟩

theorem multiSellStep_demoFrame {env : Env} (henv : env.mode = .demo)
    (n : ℕ) (st : ExecSt) (r : Rec) :
    DemoFrame env.capturedPerf st (multiSellStep env n st r) := by
  unfold multiSellStep
  simp only [henv, reduceCtorEq, if_false]
  split
  · exact demoFrame_refl _ _
  · rename_i position heq
    refine ⟨rfl, fun p hp => ?_, fun t ht hb => ?_⟩
    · exact List.mem_of_mem_filter hp
    · exact Or.inr (applySellUpdate_buyTrades env.capturedPerf st.storePerf n r.price
        position.amount ((r.price - position.entryPrice) * position.amount) ht hb)

theorem foldl_multiSellStep_demoFrame {env : Env} (henv : env.mode = .demo) (n : ℕ) :
    ∀ (rs : List Rec) (st : ExecSt),
      DemoFrame env.capturedPerf st (rs.foldl (multiSellStep env n) st) := by
  intro rs
  induction rs with
  | nil => intro st; exact demoFrame_refl _ _
  | cons r rs ih =>
      intro st
      rw [List.foldl_cons]
      exact demoFrame_trans (multiSellStep_demoFrame henv n st r) (ih _)

theorem multiBuyLoop_demo {env : Env} (henv : env.mode = .demo) (n : ℕ) :
    ∀ (rs : List Rec) (st : ExecSt), multiBuyLoop env n rs st = st := by
  intro rs
  induction rs with
  | nil => intro st; rfl
  | cons r rs ih =>
      intro st
      unfold multiBuyLoop
      rw [henv]
      simp only [reduceCtorEq, if_false, ite_self]
      split_ifs with h1
      · rfl
      · exact ih st

theorem tradePhase_demoFrame {env : Env} (henv : env.mode = .demo)
    (inp : TickIn) (sig2 : Option SignalV) (st : ExecSt) :
    DemoFrame env.capturedPerf st (tradePhase env inp sig2 st).state := by
  unfold tradePhase
  simp only [henv, reduceCtorEq, if_false]
  split_ifs with h1 h2 h3
  · exact demoFrame_refl _ _
  · split
    · exact demoFrame_refl _ _
    · rename_i position heq
      refine ⟨rfl, fun p hp => ?_, fun t ht hb => ?_⟩
      · exact List.mem_of_mem_filter hp
      · exact Or.inr (applySellUpdate_buyTrades env.capturedPerf st.storePerf inp.now
          inp.price position.amount ((inp.price - position.entryPrice) * position.amount) ht hb)
  · exact demoFrame_refl _ _
  · exact demoFrame_refl _ _

theorem slPhase_demoFrame {env : Env} (henv : env.mode = .demo)
    (inp : TickIn) (st1 : ExecSt) :
    DemoFrame env.capturedPerf st1 (slPhase env inp st1).state := by
  unfold slPhase
  simp only [henv, reduceCtorEq, if_false]
  split_ifs with h1
  · split
    · exact demoFrame_refl _ _
    · rename_i position heq
      split_ifs with h2
      · refine ⟨rfl, fun p hp => ?_, fun t ht hb => ?_⟩
        · exact List.mem_of_mem_filter hp
        · exact Or.inr (applySellUpdate_buyTrades env.capturedPerf st1.storePerf inp.now
            inp.price position.amount ((inp.price - position.entryPrice) * position.amount) ht hb)
      · exact demoFrame_refl _ _
  · exact demoFrame_refl _ _

theorem singleBranch_demoFrame {env : Env} (henv : env.mode = .demo)
    (inp : TickIn) (sig2 : Option SignalV) (st : ExecSt) :
    DemoFrame env.capturedPerf st (singleBranch env inp sig2 st).state := by
  unfold singleBranch
  have f1 := tradePhase_demoFrame henv inp sig2 st
  cases htp : tradePhase env inp sig2 st with
  | completed st1 =>
      rw [htp] at f1
      exact demoFrame_trans f1 (slPhase_demoFrame henv inp st1)
  | earlyExit s =>
      rw [htp] at f1
      exact f1
  | threw s =>
      rw [htp] at f1
      exact f1

theorem tickBody_demoFrame {env : Env} (henv : env.mode = .demo)
    (st : ExecSt) (inp : TickIn) :
    DemoFrame env.capturedPerf st (tickBody env st inp).state := by
  unfold tickBody
  split
  · exact demoFrame_refl _ _
  · split
    · exact demoFrame_refl _ _
    · exact demoFrame_refl _ _
    · split
      · -- multi-coin branch
        simp only [TickRes.state]
        rw [multiBuyLoop_demo henv inp.now]
        exact demoFrame_trans (foldl_multiSellStep_demoFrame henv inp.now _ st)
          ⟨rfl, fun _ h => h, fun t ht _ => Or.inl ht⟩
      · -- single-symbol branch
        split
        · exact demoFrame_refl _ _
        · split
          · exact demoFrame_refl _ _
          · rename_i sig2 heq
            exact singleBranch_demoFrame henv inp sig2 st

theorem stopBot_demoFrame {env : Env} (henv : env.mode = .demo)
    (w : ℚ) (n : ℕ) (st : ExecSt) :
    DemoFrame env.capturedPerf st (stopBot env w n st) := by
  unfold stopBot
  split_ifs with h1 h2
  · exact demoFrame_refl _ _
  · have f1 := cleanupRun_demoFrame henv w n st
    refine demoFrame_trans f1 ?_
    exact ⟨rfl, fun _ h => h, fun t ht _ => Or.inl ht⟩
  · exact ⟨rfl, fun _ h => h, fun t ht _ => Or.inl ht⟩

theorem tick_demoFrame {env : Env} (henv : env.mode = .demo)
    (st : ExecSt) (inp : TickIn) :
    DemoFrame env.capturedPerf st (tick env st inp) := by
  have f1 := tickBody_demoFrame henv st inp
  unfold tick
  cases hb : tickBody env st inp with
  | earlyExit st1 =>
      rw [hb] at f1
      exact f1
  | completed st1 =>
      rw [hb] at f1
      exact demoFrame_trans f1 ⟨rfl, fun _ h => h, fun t ht _ => Or.inl ht⟩
  | threw st1 =>
      rw [hb] at f1
      simp only [TickRes.state] at f1
      dsimp only
      split_ifs with h5
      · have g2 : DemoFrame env.capturedPerf st1 ({ st1 with consecutiveErrors := st1.consecutiveErrors + 1, lastError := inp.now, timerActive := false } : ExecSt) :=
          ⟨rfl, fun _ h => h, fun t ht _ => Or.inl ht⟩
        have g3 := stopBot_demoFrame henv inp.price inp.now ({ st1 with consecutiveErrors := st1.consecutiveErrors + 1, lastError := inp.now, timerActive := false } : ExecSt)
        have g4 : DemoFrame env.capturedPerf (stopBot env inp.price inp.now ({ st1 with consecutiveErrors := st1.consecutiveErrors + 1, lastError := inp.now, timerActive := false } : ExecSt)) ({ (stopBot env inp.price inp.now ({ st1 with consecutiveErrors := st1.consecutiveErrors + 1, lastError := inp.now, timerActive := false } : ExecSt)) with reports := (stopBot env inp.price inp.now ({ st1 with consecutiveErrors := st1.consecutiveErrors + 1, lastError := inp.now, timerActive := false } : ExecSt)).reports ++ [Severity.high] } : ExecSt) :=
          ⟨rfl, fun _ h => h, fun t ht _ => Or.inl ht⟩
        exact demoFrame_trans f1 (demoFrame_trans g2 (demoFrame_trans g3 g4))
      · exact demoFrame_trans f1 ⟨rfl, fun _ h => h, fun t ht _ => Or.inl ht⟩

/-- C4: a tick executed in demo mode performs no ledger mutation, never
inserts a position, and never records a buy trade: every `updateBalance`
call and every position-opening site of the executor (single-symbol buy,
multi-coin buy, multi-coin sell, stop-time liquidation credit) is
guarded by `mode === 'live'`. -/
theorem claim_C4_demo_frame :
    ∀ (env : Env) (st : ExecSt) (inp : TickIn), env.mode = .demo →
      (tick env st inp).tm = st.tm ∧
      (∀ p ∈ (tick env st inp).positions, p ∈ st.positions) ∧
      (∀ t ∈ (tick env st inp).storePerf.trades, t.ty = TradeType.buy →
        t ∈ st.storePerf.trades ∨ t ∈ env.capturedPerf.trades) := by
  intro env st inp henv
  exact tick_demoFrame henv st inp

/-! ## Cleanup characterization (claim C1) -/

theorem cleanupRun_positions (env : Env) (w : ℚ) (n : ℕ) (st : ExecSt) :
    (cleanupRun env w n st).positions = [] := rfl

theorem foldl_cleanupStep_zero (env : Env) (n : ℕ) :
    ∀ (ps : List (String × Position)) (acc : ExecSt),
      ps.foldl (cleanupStep env 0 n) acc = acc := by
  intro ps
  induction ps with
  | nil => intro acc; rfl
  | cons z ps ih =>
      intro acc
      rw [List.foldl_cons]
      have hz : cleanupStep env 0 n acc z = acc := by
        unfold cleanupStep
        rw [if_neg (by simp)]
      rw [hz]
      exact ih acc

theorem cleanupRun_eq (env : Env) (w : ℚ) (n : ℕ) (st : ExecSt) :
    cleanupRun env w n st =
      { List.foldl (cleanupStep env w n) ({ st with timerActive := false } : ExecSt) st.positions with positions := ([] : List (String × Position)) } := rfl

theorem cleanupRun_zero_price (env : Env) (n : ℕ) (st : ExecSt) :
    cleanupRun env 0 n st = { st with timerActive := false, positions := [] } := by
  rw [cleanupRun_eq, foldl_cleanupStep_zero]

theorem cleanupStep_perf (env : Env) {w : ℚ} (hw : w ≠ 0) (n : ℕ) (acc : ExecSt)
    (z : String × Position) :
    (cleanupStep env w n acc z).storePerf =
      applySellUpdate env.capturedPerf acc.storePerf n w z.2.amount
        ((w - z.2.entryPrice) * z.2.amount) := by
  unfold cleanupStep
  rw [if_pos hw]
  split_ifs <;> rfl

theorem foldl_cleanupStep_overwrite (env : Env) (w : ℚ) (n : ℕ) :
    ∀ (ps : List (String × Position)) (acc : ExecSt),
      (ps.foldl (cleanupStep env w n) acc).storePerf = acc.storePerf ∨
      ∃ t : Trade, t.ty = TradeType.sell ∧
        (ps.foldl (cleanupStep env w n) acc).storePerf.trades
          = (t :: env.capturedPerf.trades).take 100 := by
  intro ps
  induction ps with
  | nil => intro acc; exact Or.inl rfl
  | cons z ps ih =>
      intro acc
      rw [List.foldl_cons]
      rcases ih (cleanupStep env w n acc z) with h | h
      · by_cases hw : w ≠ 0
        · right
          refine ⟨{ time := n, ty := .sell, price := w, amount := z.2.amount, pnl := (w - z.2.entryPrice) * z.2.amount }, rfl, ?_⟩
          rw [h, cleanupStep_perf env hw]
          rfl
        · push_neg at hw
          left
          rw [h]
          unfold cleanupStep
          rw [if_neg (by simp [hw])]
      · exact Or.inr h

/-- C1 counterexample: a running demo-mode bot with TWO open positions
and last price 100.  `stopBot` runs the cleanup, yet the ledger is not
credited (demo mode) and only ONE sell trade record survives (each
per-position update is computed from the start-time captured
performance, so the second overwrites the first) — refuting "for every
open position ... credits the ledger ... appends a sell trade record". -/
theorem claim_C1_counterexample :
    (stopBot { strategy := .multi_coin, mode := .demo, capturedStatus := .running, capturedPerf := { totalTrades := 0, winRate := 0, profitLoss := 0, lastUpdate := 0, trades := [] }, maxPositionSize := 1000, stopLoss := 5, takeProfit := 10, symbol := "BTC/USDT", maxPositions := 5, hasCleanup := true } 100 7
      { positions := [("BTC/USDT", { entryPrice := 90, amount := 1, timestamp := 0 }), ("ETH/USDT", { entryPrice := 40, amount := 2, timestamp := 0 })], tm := { mode := .demo, demoBal := [("USDT", 1000)], liveBal := [("USDT", 0)] }, storeStatus := .running, storePerf := { totalTrades := 0, winRate := 0, profitLoss := 0, lastUpdate := 0, trades := [] }, timerActive := true, consecutiveErrors := 0, lastTradeTime := 0, lastError := 0, reports := [], activeSymbols := [] }).tm
      = { mode := .demo, demoBal := [("USDT", 1000)], liveBal := [("USDT", 0)] }
    ∧ (stopBot { strategy := .multi_coin, mode := .demo, capturedStatus := .running, capturedPerf := { totalTrades := 0, winRate := 0, profitLoss := 0, lastUpdate := 0, trades := [] }, maxPositionSize := 1000, stopLoss := 5, takeProfit := 10, symbol := "BTC/USDT", maxPositions := 5, hasCleanup := true } 100 7
      { positions := [("BTC/USDT", { entryPrice := 90, amount := 1, timestamp := 0 }), ("ETH/USDT", { entryPrice := 40, amount := 2, timestamp := 0 })], tm := { mode := .demo, demoBal := [("USDT", 1000)], liveBal := [("USDT", 0)] }, storeStatus := .running, storePerf := { totalTrades := 0, winRate := 0, profitLoss := 0, lastUpdate := 0, trades := [] }, timerActive := true, consecutiveErrors := 0, lastTradeTime := 0, lastError := 0, reports := [], activeSymbols := [] }).storePerf.trades.length
      = 1
    ∧ (100 : ℚ) * 1 ≠ 0 ∧ (100 : ℚ) * 2 ≠ 0 := by
  refine ⟨?_, ?_, by norm_num, by norm_num⟩ <;>
    simp only [stopBot, cleanupRun, cleanupStep, applySellUpdate, calculateWinRate, jsRound,
      List.foldl_cons, List.foldl_nil, reduceCtorEq, if_false, ne_eq, not_true_eq_false,
      ite_false, ite_true] <;>
    norm_num

/-- C1 amended: after `stop` returns for a running store-bot whose saved
cleanup exists, the executor's position map is empty and the status is
`stopped`.  The cleanup always clears the position map; with a known
(nonzero) last price it closes each position at that price, crediting
the ledger ONLY in live mode (demo mode leaves the ledger untouched),
and updates the bot's performance with a sell trade computed from the
performance captured at start — so successive per-position updates
overwrite one another and at most the last closed position's sell trade
record survives; with no known price nothing but the map clearing and
timer stop happens. -/
theorem claim_C1_amended :
    (∀ (env : Env) (w : ℚ) (n : ℕ) (st : ExecSt),
      st.storeStatus = .running → env.hasCleanup = true →
      (stopBot env w n st).positions = [] ∧ (stopBot env w n st).storeStatus = .stopped)
    ∧ (∀ (env : Env) (w : ℚ) (n : ℕ) (st : ExecSt), (cleanupRun env w n st).positions = [])
    ∧ (∀ (env : Env) (w : ℚ) (n : ℕ) (st : ExecSt), env.mode = .demo →
        (cleanupRun env w n st).tm = st.tm)
    ∧ (∀ (env : Env) (n : ℕ) (st : ExecSt),
        cleanupRun env 0 n st = { st with timerActive := false, positions := [] })
    ∧ (∀ (env : Env) (w : ℚ) (n : ℕ) (st : ExecSt) (sym : String) (pos : Position),
        st.positions = [(sym, pos)] → w ≠ 0 →
        (cleanupRun env w n st).storePerf =
          applySellUpdate env.capturedPerf st.storePerf n w pos.amount
            ((w - pos.entryPrice) * pos.amount)
        ∧ (env.mode = .live → (cleanupRun env w n st).tm =
            (st.tm.updateBalance "USDT" (w * pos.amount)).updateBalance
              (baseCurrency sym) (-pos.amount)))
    ∧ (∀ (env : Env) (w : ℚ) (n : ℕ) (st : ExecSt),
        (cleanupRun env w n st).storePerf = st.storePerf ∨
        ∃ t : Trade, t.ty = TradeType.sell ∧
          (cleanupRun env w n st).storePerf.trades
            = (t :: env.capturedPerf.trades).take 100) := by
  refine ⟨?_, ?_, ?_, ?_, ?_, ?_⟩
  · intro env w n st h1 h2
    simp [stopBot, h1, h2, cleanupRun_positions]
  · exact cleanupRun_positions
  · intro env w n st henv
    exact (cleanupRun_demoFrame henv w n st).1
  · exact cleanupRun_zero_price
  · intro env w n st sym pos hpos hw
    have hfold : List.foldl (cleanupStep env w n) ({ st with timerActive := false } : ExecSt) st.positions = cleanupStep env w n ({ st with timerActive := false } : ExecSt) (sym, pos) := by
      rw [hpos, List.foldl_cons, List.foldl_nil]
    constructor
    · show (List.foldl (cleanupStep env w n) ({ st with timerActive := false } : ExecSt) st.positions).storePerf = _
      rw [hfold, cleanupStep_perf env hw]
    · intro hlive
      show (List.foldl (cleanupStep env w n) ({ st with timerActive := false } : ExecSt) st.positions).tm = _
      rw [hfold]
      unfold cleanupStep
      rw [if_pos hw]
      simp [hlive]
  · intro env w n st
    have h := foldl_cleanupStep_overwrite env w n st.positions
      ({ st with timerActive := false } : ExecSt)
    rcases h with h | h
    · exact Or.inl h
    · obtain ⟨t, ht, htr⟩ := h
      exact Or.inr ⟨t, ht, htr⟩

/-- Witness for C1 amended: stopping a running live-mode bot with one
open BTC position at price 100 empties the position map and sets the
status to stopped. -/
theorem claim_C1_amended_witness :
    (stopBot { strategy := .ma_cross, mode := .live, capturedStatus := .running, capturedPerf := { totalTrades := 0, winRate := 0, profitLoss := 0, lastUpdate := 0, trades := [] }, maxPositionSize := 1000, stopLoss := 5, takeProfit := 10, symbol := "BTC/USDT", maxPositions := 5, hasCleanup := true } 100 7
      { positions := [("BTC/USDT", { entryPrice := 90, amount := 1, timestamp := 0 })], tm := { mode := .live, demoBal := [("USDT", 1000)], liveBal := [("USDT", 0)] }, storeStatus := .running, storePerf := { totalTrades := 0, winRate := 0, profitLoss := 0, lastUpdate := 0, trades := [] }, timerActive := true, consecutiveErrors := 0, lastTradeTime := 0, lastError := 0, reports := [], activeSymbols := [] }).positions
      = []
    ∧ (stopBot { strategy := .ma_cross, mode := .live, capturedStatus := .running, capturedPerf := { totalTrades := 0, winRate := 0, profitLoss := 0, lastUpdate := 0, trades := [] }, maxPositionSize := 1000, stopLoss := 5, takeProfit := 10, symbol := "BTC/USDT", maxPositions := 5, hasCleanup := true } 100 7
      { positions := [("BTC/USDT", { entryPrice := 90, amount := 1, timestamp := 0 })], tm := { mode := .live, demoBal := [("USDT", 1000)], liveBal := [("USDT", 0)] }, storeStatus := .running, storePerf := { totalTrades := 0, winRate := 0, profitLoss := 0, lastUpdate := 0, trades := [] }, timerActive := true, consecutiveErrors := 0, lastTradeTime := 0, lastError := 0, reports := [], activeSymbols := [] }).storeStatus
      = .stopped :=
  claim_C1_amended.1 _ 100 7 _ rfl rfl

/-! ## Circuit-breaker characterization (claim C2) -/

theorem cleanupStep_proj (env : Env) (w : ℚ) (n : ℕ) (acc : ExecSt) (z : String × Position) :
    (cleanupStep env w n acc z).storeStatus = acc.storeStatus ∧
    (cleanupStep env w n acc z).reports = acc.reports ∧
    (cleanupStep env w n acc z).timerActive = acc.timerActive ∧
    (cleanupStep env w n acc z).consecutiveErrors = acc.consecutiveErrors := by
  unfold cleanupStep
  split_ifs <;> exact ⟨rfl, rfl, rfl, rfl⟩

theorem foldl_cleanupStep_proj (env : Env) (w : ℚ) (n : ℕ) :
    ∀ (ps : List (String × Position)) (acc : ExecSt),
      ((ps.foldl (cleanupStep env w n) acc).storeStatus = acc.storeStatus ∧
       (ps.foldl (cleanupStep env w n) acc).reports = acc.reports ∧
       (ps.foldl (cleanupStep env w n) acc).timerActive = acc.timerActive ∧
       (ps.foldl (cleanupStep env w n) acc).consecutiveErrors = acc.consecutiveErrors) := by
  intro ps
  induction ps with
  | nil => intro acc; exact ⟨rfl, rfl, rfl, rfl⟩
  | cons z ps ih =>
      intro acc
      rw [List.foldl_cons]
      obtain ⟨a1, a2, a3, a4⟩ := ih (cleanupStep env w n acc z)
      obtain ⟨b1, b2, b3, b4⟩ := cleanupStep_proj env w n acc z
      exact ⟨a1.trans b1, a2.trans b2, a3.trans b3, a4.trans b4⟩

theorem cleanupRun_proj (env : Env) (w : ℚ) (n : ℕ) (st : ExecSt) :
    (cleanupRun env w n st).storeStatus = st.storeStatus ∧
    (cleanupRun env w n st).reports = st.reports ∧
    (cleanupRun env w n st).timerActive = false ∧
    (cleanupRun env w n st).consecutiveErrors = st.consecutiveErrors := by
  rw [cleanupRun_eq]
  obtain ⟨a1, a2, a3, a4⟩ := foldl_cleanupStep_proj env w n st.positions
    ({ st with timerActive := false } : ExecSt)
  exact ⟨a1, a2, a3, a4⟩

theorem stopBot_of_running (env : Env) (w : ℚ) (n : ℕ) (st : ExecSt)
    (hrun : st.storeStatus = .running) :
    (stopBot env w n st).storeStatus = .stopped ∧
    (stopBot env w n st).reports = st.reports ++ [Severity.low] ∧
    (stopBot env w n st).consecutiveErrors = st.consecutiveErrors := by
  unfold stopBot
  rw [if_neg (by simp [hrun])]
  cases hc : env.hasCleanup
  · simp [hc]
  · obtain ⟨a1, a2, a3, a4⟩ := cleanupRun_proj env w n st
    simp [hc, a1, a2, a4]

theorem stopBot_timer_false (env : Env) (w : ℚ) (n : ℕ) (st : ExecSt)
    (ht : st.timerActive = false) : (stopBot env w n st).timerActive = false := by
  unfold stopBot
  split_ifs with h1 h2
  · exact ht
  · exact (cleanupRun_proj env w n st).2.2.1
  · exact ht

theorem tickBody_throwInput (env : Env) (st : ExecSt) (inp : TickIn)
    (hcap : env.capturedStatus = .running) (hw : inp.wsConnected = true)
    (hs : inp.signal1 = .error ()) : tickBody env st inp = .threw st := by
  unfold tickBody
  rw [if_neg (by simp [hcap, hw]), hs]

/-- Catch-block state for a non-final failure (lines 952-953, 961). -/
def catchMedium (st : ExecSt) (now : ℕ) : ExecSt :=
  { st with consecutiveErrors := st.consecutiveErrors + 1, lastError := now, reports := st.reports ++ [Severity.medium] }

theorem tick_medium_step (env : Env) (st : ExecSt) (inp : TickIn) (st1 : ExecSt)
    (hb : tickBody env st inp = .threw st1) (hlt : st1.consecutiveErrors + 1 < 5) :
    tick env st inp = catchMedium st1 inp.now := by
  unfold tick
  rw [hb]
  dsimp only
  rw [if_neg (by simpa using not_le.mpr hlt)]
  rfl

theorem tick_throw_medium (env : Env) (st : ExecSt) (inp : TickIn)
    (hcap : env.capturedStatus = .running) (hw : inp.wsConnected = true)
    (hs : inp.signal1 = .error ()) (hlt : st.consecutiveErrors + 1 < 5) :
    tick env st inp = catchMedium st inp.now :=
  tick_medium_step env st inp st (tickBody_throwInput env st inp hcap hw hs) hlt

theorem tick_fifth_step (env : Env) (st : ExecSt) (inp : TickIn) (st1 : ExecSt)
    (hb : tickBody env st inp = .threw st1) (hge : st1.consecutiveErrors + 1 ≥ 5)
    (hrun : st1.storeStatus = .running) :
    (tick env st inp).timerActive = false ∧
    (tick env st inp).storeStatus = .stopped ∧
    (tick env st inp).reports = (st1.reports ++ [Severity.low]) ++ [Severity.high] ∧
    (tick env st inp).consecutiveErrors = st1.consecutiveErrors + 1 := by
  unfold tick
  rw [hb]
  dsimp only
  rw [if_pos (by simpa using hge)]
  have hst3 : (({ st1 with consecutiveErrors := st1.consecutiveErrors + 1, lastError := inp.now, timerActive := false }) : ExecSt).storeStatus = .running := hrun
  obtain ⟨a1, a2, a3⟩ := stopBot_of_running env inp.price inp.now
    ({ st1 with consecutiveErrors := st1.consecutiveErrors + 1, lastError := inp.now, timerActive := false } : ExecSt) hst3
  have a0 := stopBot_timer_false env inp.price inp.now
    ({ st1 with consecutiveErrors := st1.consecutiveErrors + 1, lastError := inp.now, timerActive := false } : ExecSt) rfl
  refine ⟨a0, by simp [a1], by simp [a2], by simp [a3]⟩

theorem tick_success_step (env : Env) (st : ExecSt) (inp : TickIn) (st1 : ExecSt)
    (hb : tickBody env st inp = .completed st1) :
    (tick env st inp).consecutiveErrors = 0 := by
  unfold tick
  rw [hb]

/-- C2 counterexample: from a fresh running bot, five consecutive
throwing ticks leave the bot's status at `stopped` (set by `stopBot`),
NOT at `error` as the claim states. -/
theorem claim_C2_counterexample :
    ([{ wsConnected := true, price := 100, klines := [], volume := 0, now := 1, signal1 := .error (), signal2 := .ok none }, { wsConnected := true, price := 100, klines := [], volume := 0, now := 2, signal1 := .error (), signal2 := .ok none }, { wsConnected := true, price := 100, klines := [], volume := 0, now := 3, signal1 := .error (), signal2 := .ok none }, { wsConnected := true, price := 100, klines := [], volume := 0, now := 4, signal1 := .error (), signal2 := .ok none }, { wsConnected := true, price := 100, klines := [], volume := 0, now := 5, signal1 := .error (), signal2 := .ok none }].foldl
      (tick { strategy := .ma_cross, mode := .demo, capturedStatus := .running, capturedPerf := { totalTrades := 0, winRate := 0, profitLoss := 0, lastUpdate := 0, trades := [] }, maxPositionSize := 1000, stopLoss := 5, takeProfit := 10, symbol := "BTC/USDT", maxPositions := 5, hasCleanup := false })
      { positions := [], tm := initialTMState, storeStatus := .running, storePerf := { totalTrades := 0, winRate := 0, profitLoss := 0, lastUpdate := 0, trades := [] }, timerActive := true, consecutiveErrors := 0, lastTradeTime := 0, lastError := 0, reports := [], activeSymbols := [] }).storeStatus
      = .stopped
    ∧ Status.stopped ≠ Status.error := by
  constructor
  · simp [tick, tickBody, stopBot, catchMedium, List.foldl_cons, List.foldl_nil]
  · simp

/-- C2 amended: a tick that completes resets the consecutive-error
counter to 0; a tick that throws below the threshold increments the
counter and appends exactly one medium-severity report; the tick on
which the counter reaches 5 clears the interval timer, stops the bot via
`stopBot` — setting the status to `stopped`, NOT `error` — and appends
exactly one high-severity report (after the low-severity stop notice);
hence five consecutive throwing ticks of a running bot from a zero
counter end with the timer cleared, status `stopped`, exactly one added
high-severity report and four medium-severity reports. -/
theorem claim_C2_amended :
    (∀ (env : Env) (st : ExecSt) (inp : TickIn) (st1 : ExecSt),
      tickBody env st inp = .completed st1 → (tick env st inp).consecutiveErrors = 0)
    ∧ (∀ (env : Env) (st : ExecSt) (inp : TickIn) (st1 : ExecSt),
        tickBody env st inp = .threw st1 → st1.consecutiveErrors + 1 < 5 →
        tick env st inp = { st1 with consecutiveErrors := st1.consecutiveErrors + 1, lastError := inp.now, reports := st1.reports ++ [Severity.medium] })
    ∧ (∀ (env : Env) (st : ExecSt) (inp : TickIn) (st1 : ExecSt),
        tickBody env st inp = .threw st1 → st1.consecutiveErrors + 1 ≥ 5 →
        st1.storeStatus = .running →
        (tick env st inp).timerActive = false ∧
        (tick env st inp).storeStatus = .stopped ∧
        (tick env st inp).reports = (st1.reports ++ [Severity.low]) ++ [Severity.high] ∧
        (tick env st inp).consecutiveErrors = st1.consecutiveErrors + 1)
    ∧ (∀ (env : Env) (st : ExecSt) (a b c d e : TickIn),
        env.capturedStatus = .running → st.storeStatus = .running →
        st.consecutiveErrors = 0 →
        (∀ inp ∈ [a, b, c, d, e], inp.wsConnected = true ∧ inp.signal1 = .error ()) →
        (([a, b, c, d, e].foldl (tick env) st).timerActive = false ∧
         ([a, b, c, d, e].foldl (tick env) st).storeStatus = .stopped ∧
         ([a, b, c, d, e].foldl (tick env) st).reports.count Severity.high
           = st.reports.count Severity.high + 1 ∧
         ([a, b, c, d, e].foldl (tick env) st).reports.count Severity.medium
           = st.reports.count Severity.medium + 4)) := by
  refine ⟨tick_success_step, ?_, tick_fifth_step, ?_⟩
  · intro env st inp st1 hb hlt
    exact tick_medium_step env st inp st1 hb hlt
  · intro env st a b c d e hcap hrun hce hthrow
    obtain ⟨hw1, hg1⟩ := hthrow a (by simp)
    obtain ⟨hw2, hg2⟩ := hthrow b (by simp)
    obtain ⟨hw3, hg3⟩ := hthrow c (by simp)
    obtain ⟨hw4, hg4⟩ := hthrow d (by simp)
    obtain ⟨hw5, hg5⟩ := hthrow e (by simp)
    simp only [List.foldl_cons, List.foldl_nil]
    rw [tick_throw_medium env st a hcap hw1 hg1 (by rw [hce]; norm_num)]
    rw [tick_throw_medium env _ b hcap hw2 hg2 (by simp [catchMedium, hce])]
    rw [tick_throw_medium env _ c hcap hw3 hg3 (by simp [catchMedium, hce])]
    rw [tick_throw_medium env _ d hcap hw4 hg4 (by simp [catchMedium, hce])]
    obtain ⟨f1, f2, f3, f4⟩ := tick_fifth_step env
      (catchMedium (catchMedium (catchMedium (catchMedium st a.now) b.now) c.now) d.now) e
      (catchMedium (catchMedium (catchMedium (catchMedium st a.now) b.now) c.now) d.now)
      (tickBody_throwInput env
        (catchMedium (catchMedium (catchMedium (catchMedium st a.now) b.now) c.now) d.now)
        e hcap hw5 hg5)
      (by simp [catchMedium, hce]) (by simp [catchMedium, hrun])
    refine ⟨f1, f2, ?_, ?_⟩
    · rw [f3]
      simp [catchMedium, List.count_append]
    · rw [f3]
      simp [catchMedium, List.count_append]

/-- Witness for C2 amended (the five-failure sequence) at a concrete
running bot and five concrete throwing inputs. -/
theorem claim_C2_amended_witness :
    (([{ wsConnected := true, price := 100, klines := [], volume := 0, now := 1, signal1 := .error (), signal2 := .ok none }, { wsConnected := true, price := 100, klines := [], volume := 0, now := 2, signal1 := .error (), signal2 := .ok none }, { wsConnected := true, price := 100, klines := [], volume := 0, now := 3, signal1 := .error (), signal2 := .ok none }, { wsConnected := true, price := 100, klines := [], volume := 0, now := 4, signal1 := .error (), signal2 := .ok none }, { wsConnected := true, price := 100, klines := [], volume := 0, now := 5, signal1 := .error (), signal2 := .ok none }] : List TickIn).foldl
      (tick { strategy := .ma_cross, mode := .demo, capturedStatus := .running, capturedPerf := { totalTrades := 0, winRate := 0, profitLoss := 0, lastUpdate := 0, trades := [] }, maxPositionSize := 1000, stopLoss := 5, takeProfit := 10, symbol := "BTC/USDT", maxPositions := 5, hasCleanup := false })
      { positions := [], tm := initialTMState, storeStatus := .running, storePerf := { totalTrades := 0, winRate := 0, profitLoss := 0, lastUpdate := 0, trades := [] }, timerActive := true, consecutiveErrors := 0, lastTradeTime := 0, lastError := 0, reports := [], activeSymbols := [] }).timerActive
      = false := by
  have h := (claim_C2_amended.2.2.2
    { strategy := .ma_cross, mode := .demo, capturedStatus := .running, capturedPerf := { totalTrades := 0, winRate := 0, profitLoss := 0, lastUpdate := 0, trades := [] }, maxPositionSize := 1000, stopLoss := 5, takeProfit := 10, symbol := "BTC/USDT", maxPositions := 5, hasCleanup := false }
    { positions := [], tm := initialTMState, storeStatus := .running, storePerf := { totalTrades := 0, winRate := 0, profitLoss := 0, lastUpdate := 0, trades := [] }, timerActive := true, consecutiveErrors := 0, lastTradeTime := 0, lastError := 0, reports := [], activeSymbols := [] }
    { wsConnected := true, price := 100, klines := [], volume := 0, now := 1, signal1 := .error (), signal2 := .ok none }
    { wsConnected := true, price := 100, klines := [], volume := 0, now := 2, signal1 := .error (), signal2 := .ok none }
    { wsConnected := true, price := 100, klines := [], volume := 0, now := 3, signal1 := .error (), signal2 := .ok none }
    { wsConnected := true, price := 100, klines := [], volume := 0, now := 4, signal1 := .error (), signal2 := .ok none }
    { wsConnected := true, price := 100, klines := [], volume := 0, now := 5, signal1 := .error (), signal2 := .ok none }
    rfl rfl rfl (by intro inp hinp; fin_cases hinp <;> exact ⟨rfl, rfl⟩))
  exact h.1

/-- Witness for C3: a single over-large debit from the initial demo
balance clamps to zero, and the non-negativity invariant holds for that
update sequence. -/
theorem claim_C3_updateBalance_witness :
    ((initialTMState.updateBalance "USDT" (-200000)).getBalance "USDT"
        = max 0 (initialTMState.getBalance "USDT" + (-200000)))
    ∧ TMNonneg (applyUpdates initialTMState [("USDT", -200000)]) :=
  ⟨claim_C3_updateBalance.1 initialTMState "USDT" (-200000),
   claim_C3_updateBalance.2 [("USDT", -200000)]⟩

/-- Witness for C9 at `winRate=50`, `totalTrades=1`, a winning trade. -/
theorem claim_C9_winRate_witness : calculateWinRate 50 1 true = 75 :=
  claim_C9_winRate.2

/-- Witness for C4: a concrete demo-mode tick with a buy signal leaves
the trading-mode store untouched. -/
theorem claim_C4_demo_frame_witness :
    (tick { strategy := .ma_cross, mode := .demo, capturedStatus := .running, capturedPerf := { totalTrades := 0, winRate := 0, profitLoss := 0, lastUpdate := 0, trades := [] }, maxPositionSize := 1000, stopLoss := 5, takeProfit := 10, symbol := "BTC/USDT", maxPositions := 5, hasCleanup := true }
      { positions := [], tm := initialTMState, storeStatus := .running, storePerf := { totalTrades := 0, winRate := 0, profitLoss := 0, lastUpdate := 0, trades := [] }, timerActive := true, consecutiveErrors := 0, lastTradeTime := 0, lastError := 0, reports := [], activeSymbols := [] }
      { wsConnected := true, price := 100, klines := [], volume := 0, now := 70000, signal1 := .ok (some (.single .buy)), signal2 := .ok (some (.single .buy)) }).tm
      = initialTMState :=
  (claim_C4_demo_frame
    { strategy := .ma_cross, mode := .demo, capturedStatus := .running, capturedPerf := { totalTrades := 0, winRate := 0, profitLoss := 0, lastUpdate := 0, trades := [] }, maxPositionSize := 1000, stopLoss := 5, takeProfit := 10, symbol := "BTC/USDT", maxPositions := 5, hasCleanup := true }
    { positions := [], tm := initialTMState, storeStatus := .running, storePerf := { totalTrades := 0, winRate := 0, profitLoss := 0, lastUpdate := 0, trades := [] }, timerActive := true, consecutiveErrors := 0, lastTradeTime := 0, lastError := 0, reports := [], activeSymbols := [] }
    { wsConnected := true, price := 100, klines := [], volume := 0, now := 70000, signal1 := .ok (some (.single .buy)), signal2 := .ok (some (.single .buy)) }
    rfl).1

end TradingPlatform
